import Mathlib

/-!
Verification of the TCP echo demo (src/demos/tcp_demo.cc).

The demo consists of two pieces of logic:

* the per-connection handler `tcp_test::connection::run`, which chains
  `wait_for_data().then(...)`: when data is available it calls `read()`
  synchronously; a zero-length packet makes it call `close_write()` and
  return, a non-empty packet is printed, passed to `send(...)` (whose
  returned future is discarded) and `run()` is re-invoked;
* the accept loop `tcp_test::run`, which chains `accept().then(...)`: on a
  successful accept it heap-allocates a new `connection` handler for the
  accepted connection, invokes its `run()` (fire and forget), and then
  re-invokes `tcp_test::run` to accept again.

We embed each loop as a function from the sequence of results the network
delivers to it (read results for a handler, accept results for the accept
loop) to the totally ordered trace of operations the loop issues in program
order.  An input list that ends means the corresponding future never
resolves in the execution under consideration, so the trace simply stops at
the pending operation.
-/

/-- A byte buffer: the payload one `read()` returns. -/
abbrev Buffer := List Nat

/-- The result the network delivers for one `wait_for_data` / `read` cycle:
either a packet (possibly of length zero, which is how the peer closing its
send side is reported), or a transport-level failure, which surfaces as the
awaited future failing so that the `.then` continuation never runs. -/
inductive RdRes
  | ok (p : Buffer)
  | err
  deriving DecidableEq, Repr

/-- Operations the connection handler issues, in program order.  `read` is a
synchronous call in the source, so issuing and completing it is one event;
`wait_for_data` is the only operation the handler awaits; the future that
`send` returns is discarded by the source, so the handler's trace contains
no send-completion event at all. -/
inductive Ev
  | wait_for_data
  | data_ready
  | read (p : Buffer)
  | send (p : Buffer)
  | close_write
  | io_error
  deriving DecidableEq, Repr

/-- Trace of `tcp_test::connection::run` given the sequence of read results
the connection delivers.  Mirrors the source: issue `wait_for_data`; when it
resolves, `read()` a packet `p`; if `p.len()` is zero, `close_write()` and
return; otherwise `send(p)` without awaiting it and recurse.  If the
awaited future fails, the continuation is skipped and the handler stops. -/
def tcp_test.connection.run : List RdRes → List Ev
  | [] => [Ev.wait_for_data]
  | RdRes.ok p :: rest =>
      Ev.wait_for_data :: Ev.data_ready :: Ev.read p ::
        (if p.length = 0 then [Ev.close_write]
         else Ev.send p :: tcp_test.connection.run rest)
  | RdRes.err :: _ => [Ev.wait_for_data, Ev.io_error]

/-- Operations the accept loop issues, in program order. -/
inductive AcceptEv
  | accept_issued
  | accepted (c : Nat)
  | handler_spawned (c : Nat)
  | accept_failed
  deriving DecidableEq, Repr

/-- Trace of `tcp_test::run` given the sequence of accept results.  Mirrors
the source: issue `accept()`; when it resolves with a connection, allocate
a handler for it, start it, and re-invoke `run()`; if the accept future
fails, the continuation is skipped and the loop stops. -/
def tcp_test.run : List (Except Unit Nat) → List AcceptEv
  | [] => [AcceptEv.accept_issued]
  | Except.ok c :: rest =>
      AcceptEv.accept_issued :: AcceptEv.accepted c ::
        AcceptEv.handler_spawned c :: tcp_test.run rest
  | Except.error _ :: _ => [AcceptEv.accept_issued, AcceptEv.accept_failed]

/-- A read result that keeps the handler looping: a packet of non-zero
length was delivered. -/
def goodRead : RdRes → Prop
  | RdRes.ok p => p.length ≠ 0
  | RdRes.err => False

instance (r : RdRes) : Decidable (goodRead r) :=
  match r with
  | RdRes.ok p => (inferInstance : Decidable (p.length ≠ 0))
  | RdRes.err => (inferInstance : Decidable False)

/-- The four events one completed echo cycle contributes to the trace. -/
def echoChunk : RdRes → List Ev
  | RdRes.ok p => [Ev.wait_for_data, Ev.data_ready, Ev.read p, Ev.send p]
  | RdRes.err => []

/-- Concatenation of the echo cycles of a list of read results. -/
def echoTrace : List RdRes → List Ev
  | [] => []
  | r :: rest => echoChunk r ++ echoTrace rest

/-- Buffers passed to `send`, in the order they are issued. -/
def sentBufs (t : List Ev) : List Buffer :=
  t.filterMap fun e =>
    match e with
    | Ev.send p => some p
    | _ => none

/-- Buffers returned by `read`, in the order they are read. -/
def readBufs (t : List Ev) : List Buffer :=
  t.filterMap fun e =>
    match e with
    | Ev.read p => some p
    | _ => none

theorem goodRead_ok {p : Buffer} (h : goodRead (RdRes.ok p)) : p.length ≠ 0 := h

/-- A prefix of read results that are all non-empty packets contributes its
echo cycles to the trace and leaves the handler running on the remainder. -/
theorem run_append_good (pre xs : List RdRes) (h : ∀ r ∈ pre, goodRead r) :
    tcp_test.connection.run (pre ++ xs) =
      echoTrace pre ++ tcp_test.connection.run xs := by
  induction pre with
  | nil => simp [echoTrace]
  | cons r pre ih =>
      cases r with
      | ok p =>
          have hp : p.length ≠ 0 := goodRead_ok (h _ (List.mem_cons_self _ _))
          have ih' := ih (fun r hr => h r (List.mem_cons_of_mem _ hr))
          simp [tcp_test.connection.run, echoTrace, echoChunk, hp, ih']
      | err =>
          exact absurd (h _ (List.mem_cons_self _ _)) (by simp [goodRead])

/-- The trace of a handler that has consumed only non-empty packets ends
suspended at the next `wait_for_data`. -/
theorem run_good_closed (pre : List RdRes) (h : ∀ r ∈ pre, goodRead r) :
    tcp_test.connection.run pre = echoTrace pre ++ [Ev.wait_for_data] := by
  have := run_append_good pre [] h
  simpa [tcp_test.connection.run] using this

/-- Every handler trace begins by issuing `wait_for_data`. -/
theorem run_head (xs : List RdRes) :
    (tcp_test.connection.run xs).head? = some Ev.wait_for_data := by
  cases xs with
  | nil => rfl
  | cons r rest =>
      cases r with
      | ok p =>
          by_cases hp : p.length = 0 <;> simp [tcp_test.connection.run, hp]
      | err => rfl

/-- C1: every non-empty buffer produced by a read is written back to the same
connection exactly: the buffers passed to `send` are exactly the non-empty
buffers returned by `read`, byte for byte, in the same order, with no
transformation, truncation or padding, whatever their content. -/
theorem echo_fidelity (inputs : List RdRes) :
    sentBufs (tcp_test.connection.run inputs) =
      (readBufs (tcp_test.connection.run inputs)).filter
        (fun p => decide (p.length ≠ 0)) := by
  induction inputs with
  | nil => rfl
  | cons r rest ih =>
      cases r with
      | ok p =>
          by_cases hp : p.length = 0
          · have hpe : p = [] := List.eq_nil_of_length_eq_zero hp
            subst hpe
            simp [tcp_test.connection.run, sentBufs, readBufs]
          · have hpe : p ≠ [] := fun e => hp (by simp [e])
            simp [tcp_test.connection.run, if_neg hp, sentBufs, readBufs,
              hpe] at ih ⊢
            exact ih
      | err => rfl

/-- C2: once a read returns a zero-length buffer the handler issues
`close_write` and then nothing more: the trace is independent of anything
the network would deliver afterwards and ends at `close_write`, so no
further read, wait-for-data or write is ever issued on the connection. -/
theorem close_write_on_eof_then_silent (pre rest : List RdRes)
    (h : ∀ r ∈ pre, goodRead r) :
    tcp_test.connection.run (pre ++ RdRes.ok [] :: rest) =
      tcp_test.connection.run pre ++
        [Ev.data_ready, Ev.read [], Ev.close_write] := by
  rw [run_append_good pre _ h, run_good_closed pre h]
  simp [tcp_test.connection.run]

theorem close_write_on_eof_then_silent_witness :
    tcp_test.connection.run ([RdRes.ok [1]] ++ RdRes.ok [] :: [RdRes.ok [2]]) =
      tcp_test.connection.run [RdRes.ok [1]] ++
        [Ev.data_ready, Ev.read [], Ev.close_write] :=
  close_write_on_eof_then_silent [RdRes.ok [1]] [RdRes.ok [2]] (by decide)

/-- C5: strict program order within one connection: the read of a non-empty
buffer is followed directly by the `send` of that buffer, and the next
`wait_for_data` is the very next event after the `send` is issued.  The
trace contains no send-completion event anywhere (the event type has none),
because the source discards the future `send` returns: the handler does not
wait for the write to complete before issuing the next read. -/
theorem read_send_next_wait_order (p : Buffer) (rest : List RdRes)
    (h : p.length ≠ 0) :
    tcp_test.connection.run (RdRes.ok p :: rest) =
        Ev.wait_for_data :: Ev.data_ready :: Ev.read p :: Ev.send p ::
          tcp_test.connection.run rest ∧
      (tcp_test.connection.run rest).head? = some Ev.wait_for_data :=
  ⟨by simp [tcp_test.connection.run, h], run_head rest⟩

theorem read_send_next_wait_order_witness :
    tcp_test.connection.run [RdRes.ok [3]] =
        Ev.wait_for_data :: Ev.data_ready :: Ev.read [3] :: Ev.send [3] ::
          tcp_test.connection.run [] ∧
      (tcp_test.connection.run []).head? = some Ev.wait_for_data :=
  read_send_next_wait_order [3] [] (by decide)

/-- C9: a payload delivered twice in a row is echoed twice, with no
deduplication: the sends on the wire are B followed by B, and the rest of
the trace is the independent handling of the remaining input. -/
theorem duplicate_payload_echoed_twice (B : Buffer) (rest : List RdRes)
    (h : B.length ≠ 0) :
    sentBufs (tcp_test.connection.run (RdRes.ok B :: RdRes.ok B :: rest)) =
      B :: B :: sentBufs (tcp_test.connection.run rest) := by
  simp [tcp_test.connection.run, sentBufs, h]

theorem duplicate_payload_echoed_twice_witness :
    sentBufs (tcp_test.connection.run
        (RdRes.ok [7] :: RdRes.ok [7] :: [])) =
      [7] :: [7] :: sentBufs (tcp_test.connection.run []) :=
  duplicate_payload_echoed_twice [7] [] (by decide)

/-- C10: the handler never sends a zero-length buffer: every buffer passed
to `send` has strictly positive length, because the zero-length branch goes
to `close_write` and returns before any `send` is reached. -/
theorem never_sends_empty_buffer (inputs : List RdRes) (p : Buffer)
    (h : Ev.send p ∈ tcp_test.connection.run inputs) : 0 < p.length := by
  induction inputs with
  | nil => simp [tcp_test.connection.run] at h
  | cons r rest ih =>
      cases r with
      | ok q =>
          by_cases hq : q.length = 0
          · simp [tcp_test.connection.run, hq] at h
          · simp only [tcp_test.connection.run, if_neg hq,
              List.mem_cons] at h
            rcases h with h | h | h | h | h
            · exact absurd h (by simp)
            · exact absurd h (by simp)
            · exact absurd h (by simp)
            · injection h with h2
              subst h2
              omega
            · exact ih h
      | err => simp [tcp_test.connection.run] at h

theorem never_sends_empty_buffer_witness : 0 < ([9] : Buffer).length :=
  never_sends_empty_buffer [RdRes.ok [9]] [9] (by decide)

/-- A successful accept result. -/
def okAccept : Except Unit Nat → Prop
  | Except.ok _ => True
  | Except.error _ => False

instance (r : Except Unit Nat) : Decidable (okAccept r) :=
  match r with
  | Except.ok _ => (inferInstance : Decidable True)
  | Except.error _ => (inferInstance : Decidable False)

/-- The three events one successful accept contributes to the trace. -/
def acceptChunk : Except Unit Nat → List AcceptEv
  | Except.ok c =>
      [AcceptEv.accept_issued, AcceptEv.accepted c, AcceptEv.handler_spawned c]
  | Except.error _ => []

/-- Concatenation of the accept cycles of a list of accept results. -/
def acceptTrace : List (Except Unit Nat) → List AcceptEv
  | [] => []
  | r :: rest => acceptChunk r ++ acceptTrace rest

/-- A run of successful accepts contributes its accept cycles to the trace
and leaves the loop running on the remaining results. -/
theorem accept_append_ok (pre xs : List (Except Unit Nat))
    (h : ∀ r ∈ pre, okAccept r) :
    tcp_test.run (pre ++ xs) = acceptTrace pre ++ tcp_test.run xs := by
  induction pre with
  | nil => simp [acceptTrace]
  | cons r pre ih =>
      cases r with
      | ok c =>
          have ih' := ih (fun r hr => h r (List.mem_cons_of_mem _ hr))
          simp [tcp_test.run, acceptTrace, acceptChunk, ih']
      | error e =>
          exact absurd (h _ (List.mem_cons_self _ _)) (by simp [okAccept])

/-- The trace of an accept loop whose accepts all succeeded ends suspended
at the next `accept`. -/
theorem accept_ok_closed (pre : List (Except Unit Nat))
    (h : ∀ r ∈ pre, okAccept r) :
    tcp_test.run pre = acceptTrace pre ++ [AcceptEv.accept_issued] := by
  have := accept_append_ok pre [] h
  simpa [tcp_test.run] using this

/-- C3: every successful accept makes the loop record the connection, spawn
a handler for it and immediately re-issue `accept`, whatever happened
before: the accept trace is a function of the accept results alone — the
state of earlier handlers is not even an input — so accepting connection
N+1 never requires any earlier handler to have completed. -/
theorem accept_spawns_and_rearms (pre : List (Except Unit Nat)) (c : Nat)
    (h : ∀ r ∈ pre, okAccept r) :
    tcp_test.run (pre ++ [Except.ok c]) =
      tcp_test.run pre ++
        [AcceptEv.accepted c, AcceptEv.handler_spawned c,
          AcceptEv.accept_issued] := by
  rw [accept_append_ok pre _ h, accept_ok_closed pre h]
  simp [tcp_test.run]

theorem accept_spawns_and_rearms_witness :
    tcp_test.run ([Except.ok 0] ++ [Except.ok 1]) =
      tcp_test.run [Except.ok 0] ++
        [AcceptEv.accepted 1, AcceptEv.handler_spawned 1,
          AcceptEv.accept_issued] :=
  accept_spawns_and_rearms [Except.ok 0] 1 (by decide)

/-- C6: a failed accept ends the loop: the trace stops at `accept_failed`
whatever results would have followed, so no later connection is ever
accepted or handled and no retry occurs — fatal for the whole service. -/
theorem accept_failure_stops_loop (pre rest : List (Except Unit Nat))
    (h : ∀ r ∈ pre, okAccept r) :
    tcp_test.run (pre ++ Except.error () :: rest) =
      tcp_test.run pre ++ [AcceptEv.accept_failed] := by
  rw [accept_append_ok pre _ h, accept_ok_closed pre h]
  simp [tcp_test.run]

theorem accept_failure_stops_loop_witness :
    tcp_test.run ([Except.ok 0] ++ Except.error () :: [Except.ok 1]) =
      tcp_test.run [Except.ok 0] ++ [AcceptEv.accept_failed] :=
  accept_failure_stops_loop [Except.ok 0] [Except.ok 1] (by decide)

/-- The trace of the handler of connection `c` in a whole-system run in
which the accept loop saw the results `arrivals` and connection `c`'s reads
deliver `f c`: the handler exists once spawned, and its trace is a function
of its own connection's read results only. -/
def handlerTrace (arrivals : List (Except Unit Nat))
    (f : Nat → List RdRes) (c : Nat) : Option (List Ev) :=
  if AcceptEv.handler_spawned c ∈ tcp_test.run arrivals then
    some (tcp_test.connection.run (f c))
  else none

/-- C7: a transport-level failure of an awaited operation ends that
handler's trace at `io_error`: the connection is abandoned with no retry
(nothing follows, whatever the network would deliver next), and the failure
does not propagate: any other connection whose own read results are
unchanged has an unchanged trace, and the accept loop's trace
`tcp_test.run arrivals` takes no handler input at all. -/
theorem io_error_abandons_only_that_connection
    (pre rest : List RdRes) (arrivals : List (Except Unit Nat))
    (f g : Nat → List RdRes) (b : Nat)
    (h : ∀ r ∈ pre, goodRead r) (hb : f b = g b) :
    tcp_test.connection.run (pre ++ RdRes.err :: rest) =
        tcp_test.connection.run pre ++ [Ev.io_error] ∧
      handlerTrace arrivals f b = handlerTrace arrivals g b := by
  constructor
  · rw [run_append_good pre _ h, run_good_closed pre h]
    simp [tcp_test.connection.run]
  · simp [handlerTrace, hb]

/-- Connection 0 suffers a transport failure in `fEx` but not in `gEx`;
connection 1 reads the same data in both. -/
def fEx : Nat → List RdRes :=
  fun c => if c = 0 then [RdRes.err] else [RdRes.ok [1]]

def gEx : Nat → List RdRes :=
  fun c => if c = 0 then [RdRes.ok [2], RdRes.ok []] else [RdRes.ok [1]]

theorem io_error_abandons_only_that_connection_witness :
    tcp_test.connection.run ([RdRes.ok [1]] ++ RdRes.err :: [RdRes.ok [2]]) =
        tcp_test.connection.run [RdRes.ok [1]] ++ [Ev.io_error] ∧
      handlerTrace [Except.ok 0, Except.ok 1] fEx 1 =
        handlerTrace [Except.ok 0, Except.ok 1] gEx 1 :=
  io_error_abandons_only_that_connection [RdRes.ok [1]] [RdRes.ok [2]]
    [Except.ok 0, Except.ok 1] fEx gEx 1 (by decide) (by decide)

/-- Handler objects currently allocated after the accept loop has processed
`arrivals`: `tcp_test::run` allocates each handler with `new`, and the demo
contains no matching `delete` anywhere, so nothing ever removes an entry —
regardless of how far the handler itself has progressed, including past its
terminal `close_write`. -/
def liveHandlers (arrivals : List (Except Unit Nat)) : List Nat :=
  (tcp_test.run arrivals).filterMap fun e =>
    match e with
    | AcceptEv.handler_spawned c => some c
    | _ => none

/-- C8 counterexample: the handler of connection 0 reads the zero-length
end-of-stream packet and reaches the terminal state — its trace ends at
`close_write` — yet the handler object is still allocated afterwards: the
demo never frees it, so the claim that the connection and the handler
object are released (freed) after closing is false on this input. -/
theorem handler_not_freed_after_close_cex :
    (tcp_test.connection.run [RdRes.ok []]).getLast? = some Ev.close_write ∧
      liveHandlers [Except.ok 0] = [0] := by decide

/-- C8 amended: on the zero-length read the handler issues `close_write`
and nothing further — but the handler object is not freed: once spawned,
its connection stays in the allocated set forever, because no deallocation
exists in the demo. -/
theorem close_write_without_free
    (pre rest : List RdRes) (arrivals : List (Except Unit Nat)) (c : Nat)
    (h : ∀ r ∈ pre, goodRead r)
    (hc : AcceptEv.handler_spawned c ∈ tcp_test.run arrivals) :
    tcp_test.connection.run (pre ++ RdRes.ok [] :: rest) =
        tcp_test.connection.run pre ++
          [Ev.data_ready, Ev.read [], Ev.close_write] ∧
      c ∈ liveHandlers arrivals := by
  constructor
  · rw [run_append_good pre _ h, run_good_closed pre h]
    simp [tcp_test.connection.run]
  · simp only [liveHandlers, List.mem_filterMap]
    exact ⟨_, hc, rfl⟩

theorem close_write_without_free_witness :
    tcp_test.connection.run ([RdRes.ok [4]] ++ RdRes.ok [] :: []) =
        tcp_test.connection.run [RdRes.ok [4]] ++
          [Ev.data_ready, Ev.read [], Ev.close_write] ∧
      5 ∈ liveHandlers [Except.ok 5] :=
  close_write_without_free [RdRes.ok [4]] [] [Except.ok 5] 5
    (by decide) (by decide)

/-- Recognizer for the issuing of `wait_for_data`. -/
def isWait : Ev → Bool
  | Ev.wait_for_data => true
  | _ => false

/-- Recognizer for the resolution of `wait_for_data`. -/
def isReady : Ev → Bool
  | Ev.data_ready => true
  | _ => false

/-- Recognizer for a `read` call. -/
def isRead : Ev → Bool
  | Ev.read _ => true
  | _ => false

/-- Recognizer for the issuing of a `send`. -/
def isSend : Ev → Bool
  | Ev.send _ => true
  | _ => false

/-- Modelled from the spec: the transport that completes `send` operations
is net/tcp.hh, which is not part of the demo source; the spec states that
the handler discards the future `send` returns and that this permits
unbounded outstanding write buffering, so how many of the issued sends have
completed at a given point is chosen by the environment, constrained only
by completed ≤ issued.  The writes outstanding after the first `k` trace
events are therefore the sends issued in those events minus the number the
environment has completed. -/
def outstandingWrites (inputs : List RdRes) (k completed : Nat) : Nat :=
  ((tcp_test.connection.run inputs).take k).countP isSend - completed

/-- C4 counterexample: after two echo cycles (first 8 events of the trace
for two delivered packets), two sends have been issued; with the valid
environment schedule in which neither has yet completed, two writes are
outstanding on the same connection at once, contradicting the claim that at
most one write issued by the handler is ever outstanding. -/
theorem two_sends_outstanding_cex :
    (0 : Nat) ≤ ((tcp_test.connection.run
          [RdRes.ok [1], RdRes.ok [2]]).take 8).countP isSend ∧
      outstandingWrites [RdRes.ok [1], RdRes.ok [2]] 8 0 = 2 := by decide

/-- C4 amended: the handler serializes what it awaits and what it issues —
in every prefix of a handler trace, at most one `wait_for_data` (the only
awaited operation, and the read it guards) is unresolved, and the sends
issued never outnumber the reads performed, so the handler never issues two
reads or two writes without a completed read between them.  What fails in
the original claim is only the bound on outstanding writes: completions are
not awaited, so several issued sends may be outstanding simultaneously. -/
theorem serialized_reads_and_sends (inputs : List RdRes) (k : Nat) :
    ((tcp_test.connection.run inputs).take k).countP isWait ≤
        ((tcp_test.connection.run inputs).take k).countP isReady + 1 ∧
      ((tcp_test.connection.run inputs).take k).countP isSend ≤
        ((tcp_test.connection.run inputs).take k).countP isRead := by
  induction inputs generalizing k with
  | nil =>
      rcases k with _ | m
      · simp
      · simp [tcp_test.connection.run, List.countP_cons, isWait, isReady,
          isSend, isRead]
  | cons r rest ih =>
      cases r with
      | ok p =>
          by_cases hp : p.length = 0
          · simp only [tcp_test.connection.run, if_pos hp]
            rcases k with _ | (_ | (_ | (_ | m)))
            all_goals
              simp [List.countP_cons, isWait, isReady, isSend, isRead]
          · simp only [tcp_test.connection.run, if_neg hp]
            rcases k with _ | (_ | (_ | (_ | m)))
            · simp
            · simp [List.countP_cons, isWait, isReady, isSend, isRead]
            · simp [List.countP_cons, isWait, isReady, isSend, isRead]
            · simp [List.countP_cons, isWait, isReady, isSend, isRead]
            · have hm := ih m
              simp only [List.take_succ_cons, List.countP_cons, isWait,
                isReady, isSend, isRead] at hm ⊢
              omega
      | err =>
          simp only [tcp_test.connection.run]
          rcases k with _ | (_ | m)
          all_goals
            simp [List.countP_cons, isWait, isReady, isSend, isRead]
